import Mathlib

/-!
Shallow embedding of the MMC block driver request engine from
src/drivers/mmc/card/block.c (the mmc_blk_issue_rq family), together with
the open/release reference counting (mmc_blk_open, mmc_blk_get,
mmc_blk_put) and the post-write status-poll loop.

Modelling conventions:
* machine integers are Nat; sector size is 512 bytes; `blocks << 9`
  becomes `512 * blocks`.
* the external transport (mmc_wait_for_req, mmc_wait_for_cmd,
  mmc_reinit_card) is an oracle: each main-loop iteration consumes one
  `EnvStep` describing the outcome the hardware produced.
* the block layer request is at sector granularity; segments are
  modelled as one sector each, so blk_rq_cur_bytes is 512 while the
  request is nonempty.  __blk_end_request completes whole sectors
  (clamped to what remains) and returns whether the request still has
  sectors outstanding.
* the conditionally compiled blocks (CONFIG_MMC_BLOCK_DEFERRED_RESUME,
  CONFIG_MMC_PERF_PROFILING, CONFIG_ARCH_MSM7X30 write guard) are taken
  as compiled out, matching the portable configuration of the file.
-/

namespace MmcBlk

/-- Transfer direction of a request (rq_data_dir in the source). -/
inductive Dir where
  | read
  | write
deriving DecidableEq

/-- Fixed capability flags of the card/host pair used by the issue loop:
mmc_card_sd, mmc_host_is_spi and card->host->max_blk_count. -/
structure Card where
  isSD : Bool
  isSPI : Bool
  maxBlkCount : Nat
deriving DecidableEq

/-- The request as seen through the block layer accessors blk_rq_pos
(current start sector) and blk_rq_sectors (remaining sectors), plus the
fixed direction.  Completion calls advance pos and shrink sectors. -/
structure ReqState where
  pos : Nat
  sectors : Nat
  dir : Dir
deriving DecidableEq

/-- The mutable locals of mmc_blk_issue_rq that survive across loop
iterations (block.c lines 299-301), plus card->removed. -/
structure LoopState where
  req : ReqState
  disableMulti : Bool
  cardNoReady : Nat
  tryRecovery : Nat
  removed : Bool
deriving DecidableEq

/-- Outcome of the post-write status-poll phase, abstracting the inner
polling loop (block.c lines 559-634): the card reported ready, the
status command itself failed (goto cmd_err at line 585), or the
wall-clock budget ran out without the card becoming ready. -/
inductive PollResult where
  | ready
  | cmdFail
  | notReady
deriving DecidableEq

/-- Responses of the card to the SD written-blocks query issued by
mmc_sd_num_wr_blocks (block.c lines 159-230). -/
structure SdQueryResp where
  appCmdErr : Bool
  appCmdAck : Bool
  cmdOrDataErr : Bool
  count : Nat
deriving DecidableEq

/-- mmc_sd_num_wr_blocks (block.c lines 159-230): issue APP_CMD, then
SD_APP_SEND_NUM_WR_BLKS; `none` models the (u32)-1 failure return. -/
def mmc_sd_num_wr_blocks (spi : Bool) (q : SdQueryResp) : Option Nat :=
  if q.appCmdErr then none
  else if !spi && !q.appCmdAck then none
  else if q.cmdOrDataErr then none
  else some q.count

/-- What the environment (transport + card) did for one main-loop
iteration: the error fields and transferred byte count of the
mmc_blk_request after mmc_wait_for_req, the outcome of the post-write
status poll, the outcome of mmc_reinit_card should it be called, and
the card response to the SD written-blocks query should cmd_err be
reached in this iteration. -/
structure EnvStep where
  cmdError : Bool
  dataError : Bool
  stopError : Bool
  bytesXfered : Nat
  poll : PollResult
  reinitOk : Bool
  sdQuery : SdQueryResp
deriving DecidableEq

/-- brq.cmd.error || brq.data.error || brq.stop.error (line 515). -/
def errorsOf (e : EnvStep) : Bool := e.cmdError || e.dataError || e.stopError

/-- Observable actions of one iteration, in program order: the data
command handed to mmc_wait_for_req, the get_card_status query, the
__blk_end_request completion calls (success and -EIO), mmc_reinit_card
and remove_card. -/
inductive Ev where
  | exec (startSector blocks : Nat) (dir : Dir)
  | statusQuery
  | endOk (bytes : Nat)
  | endOkSd (bytes : Nat)
  | endErr (bytes : Nat)
  | reinit (ok : Bool)
  | removeCard
deriving DecidableEq

/-- __blk_end_request(req, err, bytes): completes whole sectors, clamped
to what the request still has, and returns whether sectors remain. -/
def endRequest (r : ReqState) (bytes : Nat) : ReqState × Bool :=
  let secs := min (bytes / 512) r.sectors
  ({ pos := r.pos + secs, sectors := r.sectors - secs, dir := r.dir },
   decide (0 < r.sectors - secs))

/-- brq.data.blocks as prepared by lines 394-410: the remaining sectors,
capped at the host maximum, then forced to a single block when a prior
read error set disable_multi. -/
def planBlocks (c : Card) (s : LoopState) : Nat :=
  let b := min s.req.sectors c.maxBlkCount
  if s.disableMulti && decide (1 < b) then 1 else b

/-- Lines 595-601 of the status poll on wall-clock exhaustion without a
ready card: advance try_recovery and count the not-ready cycle. -/
def pollNotReadyUpdate (s : LoopState) : LoopState :=
  { s with tryRecovery := s.tryRecovery + 1, cardNoReady := s.cardNoReady + 1 }

/-- Lines 530-532: when the exchange came back clean, an armed
disable_multi flag is cleared again. -/
def resetDisableMulti (errs : Bool) (s : LoopState) : LoopState :=
  if !errs && s.disableMulti then { s with disableMulti := false } else s

/-- The cmd_err tail (lines 694-725): first acknowledge the known-good
prefix (the SD written-blocks count for SD cards when the query
succeeds, brq.data.bytes_xfered otherwise), then fail every remaining
sector with -EIO, one blk_rq_cur_bytes segment at a time. -/
def cmdErrTail (c : Card) (r : ReqState) (bx : Nat) (sdB : Option Nat) :
    List Ev × ReqState :=
  let pre : List Ev × ReqState :=
    if c.isSD then
      match sdB with
      | some b => ([Ev.endOkSd (512 * b)], (endRequest r (512 * b)).1)
      | none => ([], r)
    else
      ([Ev.endOk bx], (endRequest r bx).1)
  let r1 := pre.2
  (pre.1 ++ List.replicate r1.sectors (Ev.endErr 512),
   { pos := r1.pos + r1.sectors, sectors := 0, dir := r1.dir })

/-- Result of one main-loop iteration: continue with a new state
(`while (ret)` still true or an explicit `continue`), leave the loop
with the request fully accounted (`ret` became 0, function returns 1),
or take the cmd_err exit (function returns 0). -/
inductive StepOut where
  | next (s : LoopState) (evs : List Ev)
  | done (s : LoopState) (evs : List Ev)
  | fatal (s : LoopState) (evs : List Ev)
deriving DecidableEq

/-- Events of a step result. -/
def outEvs : StepOut → List Ev
  | .next _ evs => evs
  | .done _ evs => evs
  | .fatal _ evs => evs

/-- State of a step result. -/
def outState : StepOut → LoopState
  | .next s _ => s
  | .done s _ => s
  | .fatal s _ => s

/-- Whether a step result continues the loop. -/
def isNext : StepOut → Bool
  | .next _ _ => true
  | _ => false

/-- Whether a step result is the cmd_err exit. -/
def isFatal : StepOut → Bool
  | .fatal _ _ => true
  | _ => false

/-- Enter the cmd_err tail from state `s`, with the current iteration
supplying brq.data.bytes_xfered and the SD query response. -/
def fatalOut (c : Card) (s : LoopState) (e : EnvStep) (evs : List Ev) :
    StepOut :=
  let t := cmdErrTail c s.req e.bytesXfered
    (if c.isSD then mmc_sd_num_wr_blocks c.isSPI e.sdQuery else none)
  .fatal { s with req := t.2 } (evs ++ t.1)

/-- The do_reinit arm of the recovery label (lines 636-652): give up if
the card is already gone, otherwise reinitialize; on success resume the
loop, on failure remove an SD card and take the cmd_err exit. -/
def reinitAct (c : Card) (s : LoopState) (e : EnvStep) (evs : List Ev) :
    StepOut :=
  if s.removed then fatalOut c s e evs
  else if e.reinitOk then .next s (evs ++ [Ev.reinit true])
  else if c.isSD then
    fatalOut c { s with removed := true } e
      (evs ++ [Ev.reinit false, Ev.removeCard])
  else fatalOut c s e (evs ++ [Ev.reinit false])

/-- The do_remove arm of the recovery label (lines 653-657). -/
def removeAct (c : Card) (s : LoopState) (e : EnvStep) (evs : List Ev) :
    StepOut :=
  fatalOut c { s with removed := true } e (evs ++ [Ev.removeCard])

/-- One iteration of the do/while loop of mmc_blk_issue_rq
(lines 378-688), translated branch for branch; see the inline line
references. -/
def step (c : Card) (s0 : LoopState) (e : EnvStep) : StepOut :=
  let blocks := planBlocks c s0
  let errs := errorsOf e
  let ev0 : List Ev := [Ev.exec s0.req.pos blocks s0.req.dir]
  -- lines 515-528: multi-block read failure degrades and retries
  if errs && decide (1 < blocks) && decide (s0.req.dir = Dir.read) then
    .next { s0 with disableMulti := true } ev0
  else
    -- line 529: get_card_status; lines 530-532: reset disable_multi
    let ev1 := ev0 ++ (if errs then [Ev.statusQuery] else [])
    let s1 := resetDisableMulti errs s0
    -- lines 559-634: post-write status poll (non-SPI writes only)
    let doPoll := !c.isSPI && decide (s0.req.dir = Dir.write)
    if doPoll && decide (e.poll = PollResult.cmdFail) then
      fatalOut c s1 e ev1
    else
      let pnr := doPoll && decide (e.poll = PollResult.notReady)
      let s2 := if doPoll then
          (if pnr then pollNotReadyUpdate s1 else { s1 with cardNoReady := 0 })
        else s1
      let doReinit := pnr && decide (s1.tryRecovery = 1)
      let doRemove := pnr && c.isSD && decide (s1.tryRecovery = 2)
      -- recovery label, entered with the flags set by the poll
      if doReinit then reinitAct c s2 e ev1
      else if doRemove then removeAct c s2 e ev1
      -- lines 659-680: the escalation ladder
      else if errs || decide (0 < s2.cardNoReady) then
        let dr2 := decide (s2.tryRecovery = 1)
        let drm2 := c.isSD && decide (s2.tryRecovery = 2)
        let s3 := { s2 with tryRecovery := s2.tryRecovery + 1 }
        if dr2 then reinitAct c s3 e ev1
        else if drm2 then removeAct c s3 e ev1
        else if s0.req.dir = Dir.read then
          -- lines 668-678: fail the current single sector, keep going
          let t := endRequest s3.req 512
          let s4 := { s3 with req := t.1 }
          if t.2 then .next s4 (ev1 ++ [Ev.endErr 512])
          else .done s4 (ev1 ++ [Ev.endErr 512])
        else fatalOut c s3 e ev1
      else
        -- lines 682-687: a block was successfully transferred
        let t := endRequest s2.req e.bytesXfered
        let s4 := { s2 with req := t.1 }
        if t.2 then .next s4 (ev1 ++ [Ev.endOk e.bytesXfered])
        else .done s4 (ev1 ++ [Ev.endOk e.bytesXfered])

/-- Run the loop from iteration index `i` with the given fuel,
collecting the event trace; `none` means the fuel ran out before a
terminal state, `some (true, s)` is the return-1 exit and
`some (false, s)` the cmd_err return-0 exit. -/
def runFrom (c : Card) (env : Nat → EnvStep) :
    Nat → LoopState → Nat → List Ev × Option (Bool × LoopState)
  | _, _, 0 => ([], none)
  | i, s, fuel + 1 =>
    match step c s (env i) with
    | .next s' evs =>
      let rest := runFrom c env (i + 1) s' fuel
      (evs ++ rest.1, rest.2)
    | .done s' evs => (evs, some (true, s'))
    | .fatal s' evs => (evs, some (false, s'))

/-- Initial loop state at function entry (lines 299-301): ret = 1,
disable_multi = 0, card_no_ready = 0, try_recovery = 1. -/
def initState (r : ReqState) : LoopState :=
  { req := r, disableMulti := false, cardNoReady := 0, tryRecovery := 1,
    removed := false }

/-- mmc_blk_issue_rq on a request, driven by the environment oracle. -/
def mmc_blk_issue_rq (c : Card) (env : Nat → EnvStep) (r : ReqState)
    (fuel : Nat) : List Ev × Option (Bool × LoopState) :=
  runFrom c env 0 (initState r) fuel

/-- The loop state after `n` iterations (for stating claims about a
specific iteration of a concrete run). -/
def stateAt (c : Card) (env : Nat → EnvStep) (s0 : LoopState) :
    Nat → LoopState
  | 0 => s0
  | n + 1 => outState (step c (stateAt c env s0 n) (env n))

/-- Bytes an event reports as successfully completed. -/
def evOkBytes : Ev → Nat
  | .endOk b => b
  | .endOkSd b => b
  | _ => 0

/-- Bytes an event reports as failed with -EIO. -/
def evErrBytes : Ev → Nat
  | .endErr b => b
  | _ => 0

/-- Sum of the byte counts a trace reports as success. -/
def okSum : List Ev → Nat
  | [] => 0
  | ev :: l => evOkBytes ev + okSum l

/-- Sum of the byte counts a trace reports as -EIO. -/
def errSum : List Ev → Nat
  | [] => 0
  | ev :: l => evErrBytes ev + errSum l

/-- Contract of the mmc core and of the card for one iteration: the
recorded transfer never exceeds the bytes the command asked for, is a
whole number of 512-byte blocks, equals the full planned size when the
exchange was error free, and the SD written-blocks answer (blocks
written by the last write command) never exceeds what the request still
had outstanding. -/
def soundStepB (c : Card) (s : LoopState) (e : EnvStep) : Bool :=
  decide (e.bytesXfered ≤ 512 * planBlocks c s) &&
  decide (e.bytesXfered % 512 = 0) &&
  (errorsOf e || decide (e.bytesXfered = 512 * planBlocks c s)) &&
  decide ((mmc_sd_num_wr_blocks c.isSPI e.sdQuery).getD 0 ≤ s.req.sectors)

/-- The environment satisfies `soundStepB` at every state the run
actually visits, for `fuel` iterations starting at index `i`. -/
def runSoundB (c : Card) (env : Nat → EnvStep) :
    Nat → LoopState → Nat → Bool
  | _, _, 0 => true
  | i, s, fuel + 1 =>
    soundStepB c s (env i) &&
    (match step c s (env i) with
     | .next s' _ => runSoundB c env (i + 1) s' fuel
     | _ => true)

/-- Upper bound on what the environment put on record as transferred or
device-acknowledged over `fuel` iterations starting at index `i`. -/
def envOkBound (c : Card) (env : Nat → EnvStep) : Nat → Nat → Nat
  | _, 0 => 0
  | i, fuel + 1 =>
    (env i).bytesXfered +
      512 * (mmc_sd_num_wr_blocks c.isSPI (env i).sdQuery).getD 0 +
      envOkBound c env (i + 1) fuel

/-!  The status-poll loop in detail (block.c lines 559-613). -/

/-- fls as in the kernel: fls 0 = 0, otherwise the 1-based index of the
highest set bit.  Implemented with structural fuel so that it reduces
inside the kernel. -/
def flsFuel : Nat → Nat → Nat
  | 0, _ => 0
  | fuel + 1, n => if n = 0 then 0 else flsFuel fuel (n / 2) + 1

/-- Kernel fls. -/
def fls (n : Nat) : Nat := flsFuel n n

/-- The inter-poll delay the loop applies before poll number `i`
(lines 566-576): only a card whose class sets `sleepy`
(sleepy = mmc_card_sd(card)) ever sleeps, and then for
fls(i) > 11 it sleeps fls(i >> 11) milliseconds. -/
def pollDelay (sleepy : Bool) (i : Nat) : Nat :=
  if sleepy && decide (11 < fls i) then fls (i >>> 11) else 0

/-- One observed poll iteration: whether MMC_SEND_STATUS itself failed,
the R1_READY_FOR_DATA bit and R1_CURRENT_STATE of the response, and
whether the wall-clock budget (time_after(jiffies, delay)) had elapsed
when this poll came back. -/
structure PollStep where
  statusErr : Bool
  ready : Bool
  state : Nat
  budget : Bool
deriving DecidableEq

/-- The busy-wait loop of lines 565-613, counter `i`, fueled.  Order as
in the body: send status (error exits to cmd_err); on elapsed budget
with fls i > 10 either accept a ready card in state 4 despite the
timeout or give up as not ready; otherwise leave once the card is ready
and out of state 7. -/
def waitReady (penv : Nat → PollStep) : Nat → Nat → Option PollResult
  | _, 0 => none
  | i, fuel + 1 =>
    let p := penv i
    if p.statusErr then some .cmdFail
    else if p.budget && decide (10 < fls i) then
      (if p.ready && decide (p.state = 4) then some .ready
       else some .notReady)
    else if p.ready && !decide (p.state = 7) then some .ready
    else waitReady penv (i + 1) fuel

/-!  Open/release reference counting (block.c lines 77-134). -/

/-- Per-slot driver data: the usage count and read-only flag of
mmc_blk_data.  The whole slot is `Option`: `none` is a freed slot. -/
structure BlkData where
  usage : Nat
  readOnly : Bool
deriving DecidableEq

/-- mmc_blk_get (lines 77-90): a slot with usage 0 yields NULL,
otherwise the usage count is taken. -/
def mmc_blk_get (md : Option BlkData) : Option BlkData :=
  match md with
  | none => none
  | some d => if d.usage = 0 then none else some { d with usage := d.usage + 1 }

/-- mmc_blk_put (lines 92-107): drop the usage count, freeing the slot
when it reaches zero. -/
def mmc_blk_put (d : BlkData) : Option BlkData :=
  if d.usage - 1 = 0 then none else some { d with usage := d.usage - 1 }

/-- mmc_blk_open (lines 109-126): take a reference; a write-mode open of
a read-only device gives the reference back and returns -EROFS (-30); a
failed get returns -ENXIO (-6).  Returns the new slot state and the
return code. -/
def mmc_blk_open (md : Option BlkData) (writeMode : Bool) :
    Option BlkData × Int :=
  match mmc_blk_get md with
  | none => (md, -6)
  | some d =>
    if writeMode && d.readOnly then (mmc_blk_put d, -30)
    else (some d, 0)

/-!  Helper lemmas about traces and sums. -/

theorem okSum_append (l1 l2 : List Ev) :
    okSum (l1 ++ l2) = okSum l1 + okSum l2 := by
  induction l1 with
  | nil => simp [okSum]
  | cons ev l ih => simp [okSum, ih]; omega

theorem errSum_append (l1 l2 : List Ev) :
    errSum (l1 ++ l2) = errSum l1 + errSum l2 := by
  induction l1 with
  | nil => simp [errSum]
  | cons ev l ih => simp [errSum, ih]; omega

theorem okSum_replicate_endErr (n : Nat) :
    okSum (List.replicate n (Ev.endErr 512)) = 0 := by
  induction n with
  | zero => simp [okSum]
  | succ n ih => simp [List.replicate_succ, okSum, ih, evOkBytes]

theorem errSum_replicate_endErr (n : Nat) :
    errSum (List.replicate n (Ev.endErr 512)) = 512 * n := by
  induction n with
  | zero => simp [errSum]
  | succ n ih => simp [List.replicate_succ, errSum, ih, evErrBytes]; omega

/-!  Helper lemmas about fls and the poll delay. -/

theorem flsFuel_zero (f : Nat) : flsFuel f 0 = 0 := by
  cases f <;> simp [flsFuel]

theorem flsFuel_congr :
    ∀ f g n : Nat, n ≤ f → n ≤ g → flsFuel f n = flsFuel g n := by
  intro f
  induction f with
  | zero =>
    intro g n hf _
    interval_cases n
    rw [flsFuel_zero, flsFuel_zero]
  | succ f ih =>
    intro g n hf hg
    match n, g with
    | 0, g => rw [flsFuel_zero, flsFuel_zero]
    | n + 1, g + 1 =>
      simp only [flsFuel]
      rw [ih g ((n + 1) / 2) (by omega) (by omega)]

theorem fls_succ (n : Nat) : fls (n + 1) = fls ((n + 1) / 2) + 1 := by
  show flsFuel (n + 1) (n + 1) = flsFuel ((n + 1) / 2) ((n + 1) / 2) + 1
  simp only [flsFuel, Nat.succ_ne_zero, if_false]
  rw [flsFuel_congr n ((n + 1) / 2) ((n + 1) / 2) (by omega) (by omega)]

theorem fls_mono : ∀ m n : Nat, n ≤ m → fls n ≤ fls m := by
  intro m
  induction m using Nat.strong_induction_on with
  | _ m ih =>
    intro n hnm
    match n, m with
    | 0, m => simp [fls, flsFuel_zero]
    | n + 1, m + 1 =>
      rw [fls_succ n, fls_succ m]
      have h2 : (n + 1) / 2 ≤ (m + 1) / 2 := Nat.div_le_div_right hnm
      have := ih ((m + 1) / 2) (by omega) ((n + 1) / 2) h2
      omega

theorem fls_two_pow : ∀ k : Nat, fls (2 ^ k) = k + 1 := by
  intro k
  induction k with
  | zero => rfl
  | succ k ih =>
    have hp : 0 < 2 ^ (k + 1) := Nat.pos_pow_of_pos _ (by norm_num)
    obtain ⟨m, hm⟩ : ∃ m, 2 ^ (k + 1) = m + 1 := ⟨2 ^ (k + 1) - 1, by omega⟩
    rw [hm, fls_succ m, ← hm]
    have : 2 ^ (k + 1) / 2 = 2 ^ k := by
      rw [pow_succ, Nat.mul_div_cancel _ (by norm_num)]
    rw [this, ih]

/-!  Helper lemmas about the transfer plan. -/

theorem planBlocks_cases (c : Card) (s : LoopState) :
    planBlocks c s = 1 ∨
      planBlocks c s = min s.req.sectors c.maxBlkCount := by
  simp only [planBlocks]
  split
  · exact Or.inl rfl
  · exact Or.inr rfl

theorem planBlocks_eq_ite (c : Card) (s : LoopState) :
    planBlocks c s =
      if s.disableMulti = true ∧ 1 < min s.req.sectors c.maxBlkCount
      then 1 else min s.req.sectors c.maxBlkCount := by
  simp only [planBlocks]
  by_cases hd : s.disableMulti = true
  · by_cases hb : 1 < min s.req.sectors c.maxBlkCount
    · simp [hd, hb]
    · simp [hd, hb]
  · simp only [Bool.not_eq_true] at hd
    simp [hd]

theorem planBlocks_le_sectors (c : Card) (s : LoopState) :
    planBlocks c s ≤ s.req.sectors := by
  rw [planBlocks_eq_ite]
  have hmin := Nat.min_le_left s.req.sectors c.maxBlkCount
  split
  · next hc => omega
  · omega

theorem planBlocks_pos (c : Card) (s : LoopState)
    (h1 : 1 ≤ s.req.sectors) (h2 : 1 ≤ c.maxBlkCount) :
    1 ≤ planBlocks c s := by
  rw [planBlocks_eq_ite]
  have hmin : 1 ≤ min s.req.sectors c.maxBlkCount := Nat.le_min.mpr ⟨h1, h2⟩
  split
  · omega
  · omega

theorem planBlocks_multi_not_degraded (c : Card) (s : LoopState)
    (h : 1 < planBlocks c s) : s.disableMulti = false := by
  rw [planBlocks_eq_ite] at h
  cases hdm : s.disableMulti with
  | false => rfl
  | true =>
    exfalso
    rw [hdm] at h
    split at h
    · omega
    · next hc => exact hc ⟨rfl, h⟩

theorem soundStep_elim (c : Card) (s : LoopState) (e : EnvStep)
    (h : soundStepB c s e = true) :
    e.bytesXfered ≤ 512 * planBlocks c s ∧ e.bytesXfered % 512 = 0 ∧
      (errorsOf e = false → e.bytesXfered = 512 * planBlocks c s) ∧
      (mmc_sd_num_wr_blocks c.isSPI e.sdQuery).getD 0 ≤ s.req.sectors := by
  simp only [soundStepB, Bool.and_eq_true, decide_eq_true_eq,
    Bool.or_eq_true] at h
  refine ⟨h.1.1.1, h.1.1.2, fun he => ?_, h.2⟩
  rcases h.1.2 with h' | h'
  · rw [he] at h'; exact absurd h' (by simp)
  · exact h'

theorem endRequest_sectors (r : ReqState) (b : Nat) :
    (endRequest r b).1.sectors = r.sectors - min (b / 512) r.sectors := rfl

theorem endRequest_pos (r : ReqState) (b : Nat) :
    (endRequest r b).1.pos = r.pos + min (b / 512) r.sectors := rfl

theorem endRequest_dir (r : ReqState) (b : Nat) :
    (endRequest r b).1.dir = r.dir := rfl

theorem endRequest_snd (r : ReqState) (b : Nat) :
    (endRequest r b).2 = decide (0 < r.sectors - min (b / 512) r.sectors) :=
  rfl

/-!  Accounting of the cmd_err tail. -/

theorem cmdErrTail_spec (c : Card) (r : ReqState) (bx : Nat)
    (sdB : Option Nat) (hb : sdB.getD 0 ≤ r.sectors)
    (hbx : bx ≤ 512 * r.sectors) (hdvd : bx % 512 = 0) :
    okSum (cmdErrTail c r bx sdB).1 + errSum (cmdErrTail c r bx sdB).1 =
        512 * r.sectors ∧
      okSum (cmdErrTail c r bx sdB).1 ≤ bx + 512 * sdB.getD 0 ∧
      (cmdErrTail c r bx sdB).2.sectors = 0 := by
  simp only [cmdErrTail]
  by_cases hsd : c.isSD = true
  · simp only [hsd, if_true]
    cases sdB with
    | none =>
      simp [okSum_append, errSum_append, okSum, errSum,
        okSum_replicate_endErr, errSum_replicate_endErr]
    | some b =>
      simp only [Option.getD_some] at hb
      have hdiv : 512 * b / 512 = b := Nat.mul_div_cancel_left b (by norm_num)
      simp only [endRequest, hdiv, Nat.min_eq_left hb]
      simp [okSum_append, errSum_append, okSum, errSum, evOkBytes,
        evErrBytes, okSum_replicate_endErr, errSum_replicate_endErr]
      omega
  · simp only [Bool.not_eq_true] at hsd
    simp only [hsd, Bool.false_eq_true, if_false]
    obtain ⟨q, hq⟩ : ∃ q, bx = 512 * q := ⟨bx / 512, by omega⟩
    have hdiv : bx / 512 = q := by omega
    have hq' : q ≤ r.sectors := by omega
    simp only [endRequest, hdiv, Nat.min_eq_left hq']
    simp [okSum_append, errSum_append, okSum, errSum, evOkBytes,
      evErrBytes, okSum_replicate_endErr, errSum_replicate_endErr]
    omega

/-!  Specs of the recovery arms and the termination measure. -/

/-- Bytes the environment put on record in one iteration, as transfer
count plus device-acknowledged written blocks. -/
def okBoundOf (c : Card) (e : EnvStep) : Nat :=
  e.bytesXfered + 512 * (mmc_sd_num_wr_blocks c.isSPI e.sdQuery).getD 0

/-- A cmd_err exit whose trace extends `evs0`, accounts for exactly the
`n` outstanding sectors, and whose success reports are backed by the
environment record. -/
def FatalSums (c : Card) (e : EnvStep) (evs0 : List Ev) (n : Nat)
    (out : StepOut) : Prop :=
  isFatal out = true ∧
    okSum (outEvs out) + errSum (outEvs out) =
      okSum evs0 + errSum evs0 + 512 * n ∧
    okSum (outEvs out) ≤ okSum evs0 + okBoundOf c e

theorem fatalOut_spec (c : Card) (s : LoopState) (e : EnvStep)
    (evs0 : List Ev)
    (hsd : (mmc_sd_num_wr_blocks c.isSPI e.sdQuery).getD 0 ≤ s.req.sectors)
    (hbx : e.bytesXfered ≤ 512 * s.req.sectors)
    (hdvd : e.bytesXfered % 512 = 0) :
    FatalSums c e evs0 s.req.sectors (fatalOut c s e evs0) := by
  have hb : (if c.isSD then mmc_sd_num_wr_blocks c.isSPI e.sdQuery
      else none).getD 0 ≤ s.req.sectors := by
    split
    · exact hsd
    · simp
  have hspec := cmdErrTail_spec c s.req e.bytesXfered
    (if c.isSD then mmc_sd_num_wr_blocks c.isSPI e.sdQuery else none)
    hb hbx hdvd
  have hgd : (if c.isSD then mmc_sd_num_wr_blocks c.isSPI e.sdQuery
      else none).getD 0 ≤
      (mmc_sd_num_wr_blocks c.isSPI e.sdQuery).getD 0 := by
    split
    · exact le_refl _
    · simp
  refine ⟨rfl, ?_, ?_⟩
  · simp only [fatalOut, outEvs, okSum_append, errSum_append]
    omega
  · simp only [fatalOut, outEvs, okSum_append, okBoundOf]
    omega

theorem reinitAct_spec (c : Card) (s : LoopState) (e : EnvStep)
    (evs0 : List Ev)
    (hsd : (mmc_sd_num_wr_blocks c.isSPI e.sdQuery).getD 0 ≤ s.req.sectors)
    (hbx : e.bytesXfered ≤ 512 * s.req.sectors)
    (hdvd : e.bytesXfered % 512 = 0) :
    reinitAct c s e evs0 = .next s (evs0 ++ [Ev.reinit true]) ∨
      FatalSums c e evs0 s.req.sectors (reinitAct c s e evs0) := by
  simp only [reinitAct]
  split
  · exact Or.inr (fatalOut_spec c s e evs0 hsd hbx hdvd)
  · split
    · exact Or.inl rfl
    · split
      · refine Or.inr ?_
        have h := fatalOut_spec c { s with removed := true } e
          (evs0 ++ [Ev.reinit false, Ev.removeCard]) hsd hbx hdvd
        obtain ⟨hf, he, hk⟩ := h
        refine ⟨hf, ?_, ?_⟩
        · rw [he, okSum_append, errSum_append]
          simp [okSum, errSum, evOkBytes, evErrBytes]
        · rw [okSum_append] at hk
          simpa [okSum, evOkBytes] using hk
      · refine Or.inr ?_
        have h := fatalOut_spec c s e (evs0 ++ [Ev.reinit false])
          hsd hbx hdvd
        obtain ⟨hf, he, hk⟩ := h
        refine ⟨hf, ?_, ?_⟩
        · rw [he, okSum_append, errSum_append]
          simp [okSum, errSum, evOkBytes, evErrBytes]
        · rw [okSum_append] at hk
          simpa [okSum, evOkBytes] using hk

theorem removeAct_spec (c : Card) (s : LoopState) (e : EnvStep)
    (evs0 : List Ev)
    (hsd : (mmc_sd_num_wr_blocks c.isSPI e.sdQuery).getD 0 ≤ s.req.sectors)
    (hbx : e.bytesXfered ≤ 512 * s.req.sectors)
    (hdvd : e.bytesXfered % 512 = 0) :
    FatalSums c e evs0 s.req.sectors (removeAct c s e evs0) := by
  have h := fatalOut_spec c { s with removed := true } e
    (evs0 ++ [Ev.removeCard]) hsd hbx hdvd
  obtain ⟨hf, he, hk⟩ := h
  refine ⟨hf, ?_, ?_⟩
  · rw [removeAct, he, okSum_append, errSum_append]
    simp [okSum, errSum, evOkBytes, evErrBytes]
  · rw [okSum_append] at hk
    rw [removeAct]
    simpa [okSum, evOkBytes] using hk

/-- Termination measure of the main loop: outstanding sectors count
double, an armed multi-block attempt and unused escalation rungs count
once each. -/
def M (s : LoopState) : Nat :=
  2 * s.req.sectors + (if s.disableMulti = true then 0 else 1) +
    2 * (2 - min s.tryRecovery 2)

theorem resetDisableMulti_req (errs : Bool) (s : LoopState) :
    (resetDisableMulti errs s).req = s.req := by
  unfold resetDisableMulti; split <;> rfl

theorem resetDisableMulti_tryRecovery (errs : Bool) (s : LoopState) :
    (resetDisableMulti errs s).tryRecovery = s.tryRecovery := by
  unfold resetDisableMulti; split <;> rfl

theorem resetDisableMulti_cardNoReady (errs : Bool) (s : LoopState) :
    (resetDisableMulti errs s).cardNoReady = s.cardNoReady := by
  unfold resetDisableMulti; split <;> rfl

theorem resetDisableMulti_removed (errs : Bool) (s : LoopState) :
    (resetDisableMulti errs s).removed = s.removed := by
  unfold resetDisableMulti; split <;> rfl

theorem resetDisableMulti_disableMulti (errs : Bool) (s : LoopState) :
    (resetDisableMulti errs s).disableMulti = (s.disableMulti && errs) := by
  cases errs <;> cases hdm : s.disableMulti <;>
    simp_all [resetDisableMulti]

/-- Per-iteration postcondition: a continuing iteration accounts exactly
for the sectors it retired, stays on a nonempty request, strictly
decreases the measure, and only reports environment-backed bytes as
success; a terminating iteration accounts for everything outstanding. -/
def StepPost (c : Card) (e : EnvStep) (n mOld : Nat) (out : StepOut) :
    Prop :=
  match out with
  | .next s' evs =>
    okSum evs + errSum evs + 512 * s'.req.sectors = 512 * n ∧
      1 ≤ s'.req.sectors ∧ M s' < mOld ∧ okSum evs ≤ okBoundOf c e
  | .done _ evs =>
    okSum evs + errSum evs = 512 * n ∧ okSum evs ≤ okBoundOf c e
  | .fatal _ evs =>
    okSum evs + errSum evs = 512 * n ∧ okSum evs ≤ okBoundOf c e

theorem StepPost_of_fatalSums (c : Card) (e : EnvStep) (evs0 : List Ev)
    (n m : Nat) (out : StepOut) (h : FatalSums c e evs0 n out)
    (h0 : okSum evs0 = 0) (h0e : errSum evs0 = 0) :
    StepPost c e n m out := by
  obtain ⟨hf, hsum, hok⟩ := h
  cases out with
  | next s' evs => simp [isFatal] at hf
  | done s' evs => simp [isFatal] at hf
  | fatal s' evs =>
    refine ⟨?_, ?_⟩
    · simpa [outEvs, h0, h0e] using hsum
    · simpa [outEvs, h0] using hok

theorem StepPost_fatalOut (c : Card) (s3 : LoopState) (e : EnvStep)
    (evs0 : List Ev) (n m : Nat) (hreq : s3.req.sectors = n)
    (hsd : (mmc_sd_num_wr_blocks c.isSPI e.sdQuery).getD 0 ≤ n)
    (hbx : e.bytesXfered ≤ 512 * n) (hdvd : e.bytesXfered % 512 = 0)
    (h0 : okSum evs0 = 0) (h0e : errSum evs0 = 0) :
    StepPost c e n m (fatalOut c s3 e evs0) := by
  have h := fatalOut_spec c s3 e evs0 (hreq ▸ hsd) (hreq ▸ hbx) hdvd
  rw [hreq] at h
  exact StepPost_of_fatalSums c e evs0 n m _ h h0 h0e

theorem StepPost_removeAct (c : Card) (s3 : LoopState) (e : EnvStep)
    (evs0 : List Ev) (n m : Nat) (hreq : s3.req.sectors = n)
    (hsd : (mmc_sd_num_wr_blocks c.isSPI e.sdQuery).getD 0 ≤ n)
    (hbx : e.bytesXfered ≤ 512 * n) (hdvd : e.bytesXfered % 512 = 0)
    (h0 : okSum evs0 = 0) (h0e : errSum evs0 = 0) :
    StepPost c e n m (removeAct c s3 e evs0) := by
  have h := removeAct_spec c s3 e evs0 (hreq ▸ hsd) (hreq ▸ hbx) hdvd
  rw [hreq] at h
  exact StepPost_of_fatalSums c e evs0 n m _ h h0 h0e

theorem StepPost_reinitAct (c : Card) (s3 : LoopState) (e : EnvStep)
    (evs0 : List Ev) (n m : Nat) (hreq : s3.req.sectors = n)
    (hsd : (mmc_sd_num_wr_blocks c.isSPI e.sdQuery).getD 0 ≤ n)
    (hbx : e.bytesXfered ≤ 512 * n) (hdvd : e.bytesXfered % 512 = 0)
    (h0 : okSum evs0 = 0) (h0e : errSum evs0 = 0)
    (hpos : 1 ≤ n) (hM : M s3 < m) :
    StepPost c e n m (reinitAct c s3 e evs0) := by
  rcases reinitAct_spec c s3 e evs0 (hreq ▸ hsd) (hreq ▸ hbx) hdvd with
    heq | hfat
  · rw [heq]
    refine ⟨?_, hreq ▸ hpos, hM, ?_⟩
    · rw [okSum_append, errSum_append, hreq]
      simp [okSum, errSum, evOkBytes, evErrBytes, h0, h0e]
    · rw [okSum_append]
      simp [okSum, evOkBytes, h0, okBoundOf]
  · rw [hreq] at hfat
    exact StepPost_of_fatalSums c e evs0 n m _ hfat h0 h0e

theorem step_spec (c : Card) (s : LoopState) (e : EnvStep)
    (hs : soundStepB c s e = true) (hp : 1 ≤ s.req.sectors)
    (hm : 1 ≤ c.maxBlkCount) :
    StepPost c e s.req.sectors (M s) (step c s e) := by
  obtain ⟨hbx, hdvd, hfull, hsd⟩ := soundStep_elim c s e hs
  have hple := planBlocks_le_sectors c s
  have hppos := planBlocks_pos c s hp hm
  have hbx' : e.bytesXfered ≤ 512 * s.req.sectors := by omega
  by_cases herr : errorsOf e = true
  · by_cases hmr : 1 < planBlocks c s ∧ s.req.dir = Dir.read
    · have hdm := planBlocks_multi_not_degraded c s hmr.1
      simp only [step, herr, hmr.1, hmr.2, decide_True, if_true,
        Bool.true_and, Bool.and_true, decide_eq_true_eq]
      simp [StepPost, okSum, errSum, evOkBytes, evErrBytes, M, hdm,
        okBoundOf] <;> omega
    · cases hdir : s.req.dir with
      | read =>
        have hble : ¬ 1 < planBlocks c s := fun h => hmr ⟨h, hdir⟩
        by_cases htr1 : s.tryRecovery = 1
        · simp [step, herr, hdir, hble, htr1, resetDisableMulti_req,
            resetDisableMulti_tryRecovery, resetDisableMulti_cardNoReady,
            resetDisableMulti_removed, resetDisableMulti_disableMulti]
          exact StepPost_reinitAct c _ e _ _ _ rfl hsd hbx' hdvd
            (by simp [okSum, evOkBytes]) (by simp [errSum, evErrBytes])
            hp (by simp [M, htr1] <;> omega)
        · by_cases htr2 : c.isSD = true ∧ s.tryRecovery = 2
          · simp [step, herr, hdir, hble, htr1, htr2.1, htr2.2,
              resetDisableMulti_req, resetDisableMulti_tryRecovery,
              resetDisableMulti_cardNoReady, resetDisableMulti_removed,
              resetDisableMulti_disableMulti]
            exact StepPost_removeAct c _ e _ _ _ rfl hsd hbx' hdvd
              (by simp [okSum, evOkBytes]) (by simp [errSum, evErrBytes])
          · have hdrm : (c.isSD && decide (s.tryRecovery = 2)) = false := by
              cases h1 : c.isSD <;> cases h2 : decide (s.tryRecovery = 2) <;>
                simp_all
            simp [step, herr, hdir, hble, htr1, hdrm,
              resetDisableMulti_req, resetDisableMulti_tryRecovery,
              resetDisableMulti_cardNoReady, resetDisableMulti_removed,
              resetDisableMulti_disableMulti, endRequest_snd]
            split
            · simp [StepPost, okSum, errSum, evOkBytes, evErrBytes,
                endRequest_sectors, M, okBoundOf] <;> omega
            · simp [StepPost, okSum, errSum, evOkBytes, evErrBytes,
                endRequest_sectors, M, okBoundOf] <;> omega
      | write =>
        by_cases hspi : c.isSPI = true
        · -- SPI write: no status poll
          by_cases htr1 : s.tryRecovery = 1
          · simp [step, herr, hdir, hspi, htr1, resetDisableMulti_req,
              resetDisableMulti_tryRecovery, resetDisableMulti_cardNoReady,
              resetDisableMulti_removed, resetDisableMulti_disableMulti]
            exact StepPost_reinitAct c _ e _ _ _ rfl hsd hbx' hdvd
              (by simp [okSum, evOkBytes]) (by simp [errSum, evErrBytes])
              hp (by simp [M, htr1] <;> omega)
          · by_cases htr2 : c.isSD = true ∧ s.tryRecovery = 2
            · simp [step, herr, hdir, hspi, htr1, htr2.1, htr2.2,
                resetDisableMulti_req, resetDisableMulti_tryRecovery,
                resetDisableMulti_cardNoReady, resetDisableMulti_removed,
                resetDisableMulti_disableMulti]
              exact StepPost_removeAct c _ e _ _ _ rfl hsd hbx' hdvd
                (by simp [okSum, evOkBytes]) (by simp [errSum, evErrBytes])
            · have hdrm : (c.isSD && decide (s.tryRecovery = 2)) = false := by
                cases h1 : c.isSD <;> cases h2 : decide (s.tryRecovery = 2) <;>
                  simp_all
              simp [step, herr, hdir, hspi, htr1, hdrm,
                resetDisableMulti_req, resetDisableMulti_tryRecovery,
                resetDisableMulti_cardNoReady, resetDisableMulti_removed,
                resetDisableMulti_disableMulti]
              exact StepPost_fatalOut c _ e _ _ _ rfl hsd hbx' hdvd
                (by simp [okSum, evOkBytes]) (by simp [errSum, evErrBytes])
        · cases hpoll : e.poll with
          | cmdFail =>
            simp [step, herr, hdir, hspi, hpoll, resetDisableMulti_req,
              resetDisableMulti_tryRecovery, resetDisableMulti_cardNoReady,
              resetDisableMulti_removed, resetDisableMulti_disableMulti]
            exact StepPost_fatalOut c _ e _ _ _
              (by rw [resetDisableMulti_req]) hsd hbx' hdvd
              (by simp [okSum, evOkBytes]) (by simp [errSum, evErrBytes])
          | ready =>
            by_cases htr1 : s.tryRecovery = 1
            · simp [step, herr, hdir, hspi, hpoll, htr1,
                resetDisableMulti_req, resetDisableMulti_tryRecovery,
                resetDisableMulti_cardNoReady, resetDisableMulti_removed,
                resetDisableMulti_disableMulti]
              exact StepPost_reinitAct c _ e _ _ _ rfl hsd hbx' hdvd
                (by simp [okSum, evOkBytes]) (by simp [errSum, evErrBytes])
                hp (by simp [M, htr1] <;> omega)
            · by_cases htr2 : c.isSD = true ∧ s.tryRecovery = 2
              · simp [step, herr, hdir, hspi, hpoll, htr1, htr2.1, htr2.2,
                  resetDisableMulti_req, resetDisableMulti_tryRecovery,
                  resetDisableMulti_cardNoReady, resetDisableMulti_removed,
                  resetDisableMulti_disableMulti]
                exact StepPost_removeAct c _ e _ _ _ rfl hsd hbx' hdvd
                  (by simp [okSum, evOkBytes])
                  (by simp [errSum, evErrBytes])
              · have hdrm : (c.isSD && decide (s.tryRecovery = 2)) = false := by
                  cases h1 : c.isSD <;>
                    cases h2 : decide (s.tryRecovery = 2) <;> simp_all
                simp [step, herr, hdir, hspi, hpoll, htr1, hdrm,
                  resetDisableMulti_req, resetDisableMulti_tryRecovery,
                  resetDisableMulti_cardNoReady, resetDisableMulti_removed,
                  resetDisableMulti_disableMulti]
                exact StepPost_fatalOut c _ e _ _ _ rfl hsd hbx' hdvd
                  (by simp [okSum, evOkBytes])
                  (by simp [errSum, evErrBytes])
          | notReady =>
            by_cases htr1 : s.tryRecovery = 1
            · simp [step, herr, hdir, hspi, hpoll, htr1,
                resetDisableMulti_req, resetDisableMulti_tryRecovery,
                resetDisableMulti_cardNoReady, resetDisableMulti_removed,
                resetDisableMulti_disableMulti, pollNotReadyUpdate]
              exact StepPost_reinitAct c _ e _ _ _ rfl hsd hbx' hdvd
                (by simp [okSum, evOkBytes]) (by simp [errSum, evErrBytes])
                hp (by simp [M, htr1] <;> omega)
            · by_cases htr2 : c.isSD = true ∧ s.tryRecovery = 2
              · simp [step, herr, hdir, hspi, hpoll, htr1, htr2.1, htr2.2,
                  resetDisableMulti_req, resetDisableMulti_tryRecovery,
                  resetDisableMulti_cardNoReady, resetDisableMulti_removed,
                  resetDisableMulti_disableMulti, pollNotReadyUpdate]
                exact StepPost_removeAct c _ e _ _ _ rfl hsd hbx' hdvd
                  (by simp [okSum, evOkBytes])
                  (by simp [errSum, evErrBytes])
              · have hdrm : (c.isSD && decide (s.tryRecovery = 2)) = false := by
                  cases h1 : c.isSD <;>
                    cases h2 : decide (s.tryRecovery = 2) <;> simp_all
                by_cases htr0 : s.tryRecovery = 0
                · simp [step, herr, hdir, hspi, hpoll, htr1, hdrm, htr0,
                    resetDisableMulti_req, resetDisableMulti_tryRecovery,
                    resetDisableMulti_cardNoReady, resetDisableMulti_removed,
                    resetDisableMulti_disableMulti, pollNotReadyUpdate]
                  exact StepPost_reinitAct c _ e _ _ _ rfl hsd hbx' hdvd
                    (by simp [okSum, evOkBytes])
                    (by simp [errSum, evErrBytes])
                    hp (by simp [M, htr0] <;> omega)
                · have hdrm2 : (c.isSD && decide (s.tryRecovery + 1 = 2)) =
                      false := by
                    cases h1 : c.isSD <;>
                      cases h2 : decide (s.tryRecovery + 1 = 2) <;> simp_all
                  simp [step, herr, hdir, hspi, hpoll, htr1, hdrm, htr0,
                    hdrm2, resetDisableMulti_req,
                    resetDisableMulti_tryRecovery,
                    resetDisableMulti_cardNoReady, resetDisableMulti_removed,
                    resetDisableMulti_disableMulti, pollNotReadyUpdate]
                  exact StepPost_fatalOut c _ e _ _ _ rfl hsd hbx' hdvd
                    (by simp [okSum, evOkBytes])
                    (by simp [errSum, evErrBytes])
  · have herr2 : errorsOf e = false := by
      revert herr; cases errorsOf e <;> simp
    have hbxeq := hfull herr2
    have hdivq : e.bytesXfered / 512 = planBlocks c s := by omega
    cases hdir : s.req.dir with
    | read =>
      by_cases hcnr : 0 < s.cardNoReady
      · by_cases htr1 : s.tryRecovery = 1
        · simp [step, herr2, hdir, hcnr, htr1, resetDisableMulti_req,
            resetDisableMulti_tryRecovery, resetDisableMulti_cardNoReady,
            resetDisableMulti_removed, resetDisableMulti_disableMulti]
          exact StepPost_reinitAct c _ e _ _ _ rfl hsd hbx' hdvd
            (by simp [okSum, evOkBytes]) (by simp [errSum, evErrBytes])
            hp (by simp [M, htr1] <;> omega)
        · by_cases htr2 : c.isSD = true ∧ s.tryRecovery = 2
          · simp [step, herr2, hdir, hcnr, htr1, htr2.1, htr2.2,
              resetDisableMulti_req, resetDisableMulti_tryRecovery,
              resetDisableMulti_cardNoReady, resetDisableMulti_removed,
              resetDisableMulti_disableMulti]
            exact StepPost_removeAct c _ e _ _ _ rfl hsd hbx' hdvd
              (by simp [okSum, evOkBytes]) (by simp [errSum, evErrBytes])
          · have hdrm : (c.isSD && decide (s.tryRecovery = 2)) = false := by
              cases h1 : c.isSD <;> cases h2 : decide (s.tryRecovery = 2) <;>
                simp_all
            simp [step, herr2, hdir, hcnr, htr1, hdrm,
              resetDisableMulti_req, resetDisableMulti_tryRecovery,
              resetDisableMulti_cardNoReady, resetDisableMulti_removed,
              resetDisableMulti_disableMulti, endRequest_snd]
            split
            · simp [StepPost, okSum, errSum, evOkBytes, evErrBytes,
                endRequest_sectors, M, okBoundOf] <;> omega
            · simp [StepPost, okSum, errSum, evOkBytes, evErrBytes,
                endRequest_sectors, M, okBoundOf] <;> omega
      · have hc0 : s.cardNoReady = 0 := by omega
        simp [step, herr2, hdir, hc0, resetDisableMulti_req,
          resetDisableMulti_tryRecovery, resetDisableMulti_cardNoReady,
          resetDisableMulti_removed, resetDisableMulti_disableMulti,
          endRequest_snd, hdivq, Nat.min_eq_left hple]
        split
        · simp [StepPost, okSum, errSum, evOkBytes, evErrBytes,
            endRequest_sectors, hdivq, Nat.min_eq_left hple, M,
            okBoundOf] <;> omega
        · simp [StepPost, okSum, errSum, evOkBytes, evErrBytes,
            endRequest_sectors, hdivq, Nat.min_eq_left hple, M,
            okBoundOf] <;> omega
    | write =>
      by_cases hspi : c.isSPI = true
      · by_cases hcnr : 0 < s.cardNoReady
        · by_cases htr1 : s.tryRecovery = 1
          · simp [step, herr2, hdir, hspi, hcnr, htr1,
              resetDisableMulti_req, resetDisableMulti_tryRecovery,
              resetDisableMulti_cardNoReady, resetDisableMulti_removed,
              resetDisableMulti_disableMulti]
            exact StepPost_reinitAct c _ e _ _ _ rfl hsd hbx' hdvd
              (by simp [okSum, evOkBytes]) (by simp [errSum, evErrBytes])
              hp (by simp [M, htr1] <;> omega)
          · by_cases htr2 : c.isSD = true ∧ s.tryRecovery = 2
            · simp [step, herr2, hdir, hspi, hcnr, htr1, htr2.1, htr2.2,
                resetDisableMulti_req, resetDisableMulti_tryRecovery,
                resetDisableMulti_cardNoReady, resetDisableMulti_removed,
                resetDisableMulti_disableMulti]
              exact StepPost_removeAct c _ e _ _ _ rfl hsd hbx' hdvd
                (by simp [okSum, evOkBytes]) (by simp [errSum, evErrBytes])
            · have hdrm : (c.isSD && decide (s.tryRecovery = 2)) = false := by
                cases h1 : c.isSD <;>
                  cases h2 : decide (s.tryRecovery = 2) <;> simp_all
              simp [step, herr2, hdir, hspi, hcnr, htr1, hdrm,
                resetDisableMulti_req, resetDisableMulti_tryRecovery,
                resetDisableMulti_cardNoReady, resetDisableMulti_removed,
                resetDisableMulti_disableMulti]
              exact StepPost_fatalOut c _ e _ _ _ rfl hsd hbx' hdvd
                (by simp [okSum, evOkBytes]) (by simp [errSum, evErrBytes])
        · have hc0 : s.cardNoReady = 0 := by omega
          simp [step, herr2, hdir, hspi, hc0, resetDisableMulti_req,
            resetDisableMulti_tryRecovery, resetDisableMulti_cardNoReady,
            resetDisableMulti_removed, resetDisableMulti_disableMulti,
            endRequest_snd, hdivq, Nat.min_eq_left hple]
          split
          · simp [StepPost, okSum, errSum, evOkBytes, evErrBytes,
              endRequest_sectors, hdivq, Nat.min_eq_left hple, M,
              okBoundOf] <;> omega
          · simp [StepPost, okSum, errSum, evOkBytes, evErrBytes,
              endRequest_sectors, hdivq, Nat.min_eq_left hple, M,
              okBoundOf] <;> omega
      · cases hpoll : e.poll with
        | cmdFail =>
          simp [step, herr2, hdir, hspi, hpoll, resetDisableMulti_req,
            resetDisableMulti_tryRecovery, resetDisableMulti_cardNoReady,
            resetDisableMulti_removed, resetDisableMulti_disableMulti]
          exact StepPost_fatalOut c _ e _ _ _
            (by rw [resetDisableMulti_req]) hsd hbx' hdvd
            (by simp [okSum, evOkBytes]) (by simp [errSum, evErrBytes])
        | ready =>
          simp [step, herr2, hdir, hspi, hpoll, resetDisableMulti_req,
            resetDisableMulti_tryRecovery, resetDisableMulti_cardNoReady,
            resetDisableMulti_removed, resetDisableMulti_disableMulti,
            endRequest_snd, hdivq, Nat.min_eq_left hple]
          split
          · simp [StepPost, okSum, errSum, evOkBytes, evErrBytes,
              endRequest_sectors, hdivq, Nat.min_eq_left hple, M,
              okBoundOf] <;> omega
          · simp [StepPost, okSum, errSum, evOkBytes, evErrBytes,
              endRequest_sectors, hdivq, Nat.min_eq_left hple, M,
              okBoundOf] <;> omega
        | notReady =>
          by_cases htr1 : s.tryRecovery = 1
          · simp [step, herr2, hdir, hspi, hpoll, htr1,
              resetDisableMulti_req, resetDisableMulti_tryRecovery,
              resetDisableMulti_cardNoReady, resetDisableMulti_removed,
              resetDisableMulti_disableMulti, pollNotReadyUpdate]
            exact StepPost_reinitAct c _ e _ _ _ rfl hsd hbx' hdvd
              (by simp [okSum, evOkBytes]) (by simp [errSum, evErrBytes])
              hp (by simp [M, htr1] <;> omega)
          · by_cases htr2 : c.isSD = true ∧ s.tryRecovery = 2
            · simp [step, herr2, hdir, hspi, hpoll, htr1, htr2.1, htr2.2,
                resetDisableMulti_req, resetDisableMulti_tryRecovery,
                resetDisableMulti_cardNoReady, resetDisableMulti_removed,
                resetDisableMulti_disableMulti, pollNotReadyUpdate]
              exact StepPost_removeAct c _ e _ _ _ rfl hsd hbx' hdvd
                (by simp [okSum, evOkBytes]) (by simp [errSum, evErrBytes])
            · have hdrm : (c.isSD && decide (s.tryRecovery = 2)) = false := by
                cases h1 : c.isSD <;>
                  cases h2 : decide (s.tryRecovery = 2) <;> simp_all
              by_cases htr0 : s.tryRecovery = 0
              · simp [step, herr2, hdir, hspi, hpoll, htr1, hdrm, htr0,
                  resetDisableMulti_req, resetDisableMulti_tryRecovery,
                  resetDisableMulti_cardNoReady, resetDisableMulti_removed,
                  resetDisableMulti_disableMulti, pollNotReadyUpdate]
                exact StepPost_reinitAct c _ e _ _ _ rfl hsd hbx' hdvd
                  (by simp [okSum, evOkBytes])
                  (by simp [errSum, evErrBytes])
                  hp (by simp [M, htr0] <;> omega)
              · have hdrm2 : (c.isSD && decide (s.tryRecovery + 1 = 2)) =
                    false := by
                  cases h1 : c.isSD <;>
                    cases h2 : decide (s.tryRecovery + 1 = 2) <;> simp_all
                simp [step, herr2, hdir, hspi, hpoll, htr1, hdrm, htr0,
                  hdrm2, resetDisableMulti_req,
                  resetDisableMulti_tryRecovery,
                  resetDisableMulti_cardNoReady, resetDisableMulti_removed,
                  resetDisableMulti_disableMulti, pollNotReadyUpdate]
                exact StepPost_fatalOut c _ e _ _ _ rfl hsd hbx' hdvd
                  (by simp [okSum, evOkBytes])
                  (by simp [errSum, evErrBytes])

/-!  Whole-run lemmas, by induction on the fuel. -/

theorem runFrom_account (c : Card) (env : Nat → EnvStep)
    (hm : 1 ≤ c.maxBlkCount) :
    ∀ (fuel i : Nat) (s : LoopState), runSoundB c env i s fuel = true →
      1 ≤ s.req.sectors →
      okSum (runFrom c env i s fuel).1 + errSum (runFrom c env i s fuel).1 ≤
          512 * s.req.sectors ∧
        okSum (runFrom c env i s fuel).1 ≤ envOkBound c env i fuel := by
  intro fuel
  induction fuel with
  | zero => intro i s _ _; simp [runFrom, okSum, errSum, envOkBound]
  | succ fuel ih =>
    intro i s hsnd hp
    simp only [runSoundB, Bool.and_eq_true] at hsnd
    obtain ⟨hs1, hs2⟩ := hsnd
    have hpost := step_spec c s (env i) hs1 hp hm
    cases hstep : step c s (env i) with
    | next s2 evs =>
      rw [hstep] at hpost hs2
      simp only [StepPost] at hpost
      obtain ⟨hsum, hp2, _, hok⟩ := hpost
      have hrest := ih (i + 1) s2 hs2 hp2
      simp only [runFrom, hstep, okSum_append, errSum_append, envOkBound,
        okBoundOf] at *
      constructor
      · omega
      · omega
    | done s2 evs =>
      rw [hstep] at hpost
      simp only [StepPost, okBoundOf] at hpost
      simp only [runFrom, hstep, envOkBound]
      omega
    | fatal s2 evs =>
      rw [hstep] at hpost
      simp only [StepPost, okBoundOf] at hpost
      simp only [runFrom, hstep, envOkBound]
      omega

theorem runFrom_terminates (c : Card) (env : Nat → EnvStep)
    (hm : 1 ≤ c.maxBlkCount) :
    ∀ (fuel i : Nat) (s : LoopState), runSoundB c env i s fuel = true →
      1 ≤ s.req.sectors → M s < fuel →
      ((runFrom c env i s fuel).2).isSome = true := by
  intro fuel
  induction fuel with
  | zero => intro i s _ _ hM; omega
  | succ fuel ih =>
    intro i s hsnd hp hM
    simp only [runSoundB, Bool.and_eq_true] at hsnd
    obtain ⟨hs1, hs2⟩ := hsnd
    have hpost := step_spec c s (env i) hs1 hp hm
    cases hstep : step c s (env i) with
    | next s2 evs =>
      rw [hstep] at hpost hs2
      simp only [StepPost] at hpost
      obtain ⟨_, hp2, hMlt, _⟩ := hpost
      simp only [runFrom, hstep]
      exact ih (i + 1) s2 hs2 hp2 (by omega)
    | done s2 evs => simp [runFrom, hstep]
    | fatal s2 evs => simp [runFrom, hstep]

/-!  Concrete fixtures for witnesses and counterexamples. -/

/-- A non-removable (MMC) card, non-SPI host, 8-block command cap. -/
def mmcCard8 : Card := { isSD := false, isSPI := false, maxBlkCount := 8 }

/-- A removable (SD) card, non-SPI host, 8-block command cap. -/
def sdCard8 : Card := { isSD := true, isSPI := false, maxBlkCount := 8 }

/-- SD written-blocks query answered with one block written. -/
def sdOkQuery : SdQueryResp :=
  { appCmdErr := false, appCmdAck := true, cmdOrDataErr := false, count := 1 }

/-- SD written-blocks query that fails at APP_CMD. -/
def sdNoQuery : SdQueryResp :=
  { appCmdErr := true, appCmdAck := false, cmdOrDataErr := false, count := 0 }

/-- A clean single-block exchange. -/
def cleanStep : EnvStep :=
  { cmdError := false, dataError := false, stopError := false,
    bytesXfered := 512, poll := .ready, reinitOk := true,
    sdQuery := sdNoQuery }

/-- A data error with nothing transferred. -/
def dataErrStep : EnvStep :=
  { cleanStep with dataError := true, bytesXfered := 0 }

/-- A failing write on an SD card whose written-blocks query succeeds. -/
def sdWriteFailStep : EnvStep := { dataErrStep with sdQuery := sdOkQuery }

/-- Alternating failure and clean exchange. -/
def altEnv : Nat → EnvStep :=
  fun n => if n % 2 = 0 then dataErrStep else cleanStep

/-- Every exchange fails. -/
def errEnv : Nat → EnvStep := fun _ => dataErrStep

/-- Every exchange is a failing SD write. -/
def sdWriteEnv : Nat → EnvStep := fun _ => sdWriteFailStep

/-- One failure, then clean exchanges. -/
def oneErrEnv : Nat → EnvStep :=
  fun n => if n = 0 then dataErrStep else cleanStep

/-- A 6-sector read request. -/
def readReq6 : ReqState := { pos := 0, sectors := 6, dir := Dir.read }

/-- A 3-sector read request at sector 100. -/
def readReq3 : ReqState := { pos := 100, sectors := 3, dir := Dir.read }

/-- A 4-sector write request. -/
def writeReq4 : ReqState := { pos := 0, sectors := 4, dir := Dir.write }

/-- A zero-sector request. -/
def zeroReq : ReqState := { pos := 0, sectors := 0, dir := Dir.read }

/-!  Claim theorems. -/

/-- C1: over any run of mmc_blk_issue_rq on a nonempty request against
an environment that honours the transfer contract (recorded transfers
never exceed the command size, are whole blocks, and the SD
written-blocks answer never exceeds what is outstanding), the byte
counts passed across all __blk_end_request completion calls sum to at
most the request byte length, and the bytes reported as success never
exceed what the environment recorded as transferred or as acknowledged
by the device written-blocks query.  This covers the full-success path,
the per-sector degraded path, and the cmd_err path, where the SD count
is passed to __blk_end_request without clamping. -/
theorem mmc_blk_issue_rq_accounting (c : Card) (env : Nat → EnvStep)
    (r : ReqState) (fuel : Nat)
    (hsnd : runSoundB c env 0 (initState r) fuel = true)
    (hp : 1 ≤ r.sectors) (hm : 1 ≤ c.maxBlkCount) :
    okSum (mmc_blk_issue_rq c env r fuel).1 +
        errSum (mmc_blk_issue_rq c env r fuel).1 ≤ 512 * r.sectors ∧
      okSum (mmc_blk_issue_rq c env r fuel).1 ≤ envOkBound c env 0 fuel :=
  runFrom_account c env hm fuel 0 (initState r) hsnd hp

/-- Witness for C1: a persistently failing 4-sector SD write reaching
cmd_err with a device-reported count of one block. -/
theorem mmc_blk_issue_rq_accounting_witness :
    okSum (mmc_blk_issue_rq sdCard8 sdWriteEnv writeReq4 8).1 +
        errSum (mmc_blk_issue_rq sdCard8 sdWriteEnv writeReq4 8).1 ≤
        512 * 4 ∧
      okSum (mmc_blk_issue_rq sdCard8 sdWriteEnv writeReq4 8).1 ≤
        envOkBound sdCard8 sdWriteEnv 0 8 :=
  mmc_blk_issue_rq_accounting sdCard8 sdWriteEnv writeReq4 8 (by decide)
    (by decide) (by decide)

/-- C6 (amended): the main loop reaches a terminal state within
2 * sectors + 4 cycles whenever the environment honours the transfer
contract; the bound in the claim (escalation rungs + one reinit + one
cycle per sector) is too small, see the counterexample. -/
theorem mmc_blk_issue_rq_terminates (c : Card) (env : Nat → EnvStep)
    (r : ReqState)
    (hsnd : runSoundB c env 0 (initState r) (2 * r.sectors + 4) = true)
    (hp : 1 ≤ r.sectors) (hm : 1 ≤ c.maxBlkCount) :
    ((mmc_blk_issue_rq c env r (2 * r.sectors + 4)).2).isSome = true := by
  refine runFrom_terminates c env hm (2 * r.sectors + 4) 0 (initState r)
    hsnd hp ?_
  simp [M, initState] <;> omega

/-- Witness for the amended C6: the alternating 6-sector read run
terminates within the 2 * 6 + 4 bound. -/
theorem mmc_blk_issue_rq_terminates_witness :
    ((mmc_blk_issue_rq mmcCard8 altEnv readReq6 (2 * 6 + 4)).2).isSome =
      true :=
  mmc_blk_issue_rq_terminates mmcCard8 altEnv readReq6 (by decide)
    (by decide) (by decide)

/-- Counterexample for C6 as stated: a 6-sector read whose multi-block
attempts alternately fail and recover needs 12 cycles, exceeding the
claimed bound of 3 escalation rungs + 1 reinit + 6 sectors = 10 cycles,
even though the environment honours the transfer contract. -/
theorem issue_rq_cycle_bound_cex :
    ((runFrom mmcCard8 altEnv 0 (initState readReq6) 10).2).isSome =
        false ∧
      ((runFrom mmcCard8 altEnv 0 (initState readReq6) 12).2).isSome =
        true ∧
      runSoundB mmcCard8 altEnv 0 (initState readReq6) 12 = true := by
  decide

/-- C3: a command, data or stop error on a plan with more than one block
in the Read direction makes the iteration set degraded single-block
mode and retry immediately: the step result is exactly a continue with
only the disable_multi flag changed (position, remaining sectors,
try_recovery, card_no_ready all unchanged, so the retry starts at the
current request position), the trace of the iteration holds nothing but
the data command (no get_card_status, no completion call, no recovery
action), and the next plan is a single block. -/
theorem multi_read_error_degrades (c : Card) (s : LoopState) (e : EnvStep)
    (herr : errorsOf e = true) (hmb : 1 < planBlocks c s)
    (hdir : s.req.dir = Dir.read) :
    step c s e = .next { s with disableMulti := true }
        [Ev.exec s.req.pos (planBlocks c s) s.req.dir] ∧
      planBlocks c { s with disableMulti := true } = 1 := by
  constructor
  · simp [step, herr, hmb, hdir]
  · have h2 : 1 < min s.req.sectors c.maxBlkCount := by
      rcases planBlocks_cases c s with h | h
      · omega
      · omega
    rw [planBlocks_eq_ite]
    simp [h2]

/-- Witness for C3: a failing 3-block read plan degrades. -/
theorem multi_read_error_degrades_witness :
    step mmcCard8 (initState readReq3) dataErrStep =
        .next { initState readReq3 with disableMulti := true }
          [Ev.exec 100 (planBlocks mmcCard8 (initState readReq3))
            Dir.read] ∧
      planBlocks mmcCard8 { initState readReq3 with
        disableMulti := true } = 1 :=
  multi_read_error_degrades mmcCard8 (initState readReq3) dataErrStep
    (by decide) (by decide) (by decide)

/-- Counterexample for C4 as stated: after a multi-block read data
error at iteration 0, iteration 1 runs degraded (plan of one block) and
succeeds, but the success clears disable_multi (block.c lines 530-532),
so iteration 2 issues a plan of 2 blocks again: the remaining sectors
of the failed range are not kept in single-block mode.  The first two
environment steps obey the transfer contract. -/
theorem degraded_mode_not_persistent_cex :
    (stateAt mmcCard8 oneErrEnv (initState readReq3) 1).disableMulti =
        true ∧
      planBlocks mmcCard8
          (stateAt mmcCard8 oneErrEnv (initState readReq3) 1) = 1 ∧
      (stateAt mmcCard8 oneErrEnv (initState readReq3) 2).disableMulti =
        false ∧
      planBlocks mmcCard8
          (stateAt mmcCard8 oneErrEnv (initState readReq3) 2) = 2 ∧
      runSoundB mmcCard8 oneErrEnv 0 (initState readReq3) 2 = true := by
  decide

/-- C4 (amended): after a multi-block read error the next plan is a
single block, and each successful degraded transfer is reported
incrementally — but the success also clears disable_multi, so the
sectors after the first successful degraded transfer may be issued
multi-block again; degraded mode persists only across consecutive
failures. -/
theorem degraded_success_resets_multi (c : Card) (s : LoopState)
    (e : EnvStep) (herr : errorsOf e = false)
    (hdm : s.disableMulti = true) (hdir : s.req.dir = Dir.read)
    (hcnr : s.cardNoReady = 0) :
    ∃ s2 : LoopState,
      (step c s e = .next s2
          [Ev.exec s.req.pos (planBlocks c s) s.req.dir,
            Ev.endOk e.bytesXfered] ∨
        step c s e = .done s2
          [Ev.exec s.req.pos (planBlocks c s) s.req.dir,
            Ev.endOk e.bytesXfered]) ∧
      s2.disableMulti = false ∧
      s2.req.pos = s.req.pos + min (e.bytesXfered / 512) s.req.sectors ∧
      s2.req.sectors =
        s.req.sectors - min (e.bytesXfered / 512) s.req.sectors := by
  simp only [step, herr, hdir, hcnr, Bool.false_and, Bool.and_false,
    Bool.false_eq_true, if_false, Bool.false_or]
  simp [herr, hdir, hcnr, resetDisableMulti_req,
    resetDisableMulti_tryRecovery, resetDisableMulti_cardNoReady,
    resetDisableMulti_removed, resetDisableMulti_disableMulti,
    endRequest_snd]
  split
  · exact ⟨_, Or.inl rfl, rfl, rfl, rfl⟩
  · exact ⟨_, Or.inr rfl, rfl, rfl, rfl⟩

/-- Witness for the amended C4: a clean degraded single-block read
transfer is reported and clears the flag. -/
theorem degraded_success_resets_multi_witness :
    ∃ s2 : LoopState,
      (step mmcCard8 { initState readReq3 with disableMulti := true }
            cleanStep =
          .next s2
            [Ev.exec 100 (planBlocks mmcCard8
                { initState readReq3 with disableMulti := true })
              Dir.read, Ev.endOk 512] ∨
        step mmcCard8 { initState readReq3 with disableMulti := true }
            cleanStep =
          .done s2
            [Ev.exec 100 (planBlocks mmcCard8
                { initState readReq3 with disableMulti := true })
              Dir.read, Ev.endOk 512]) ∧
      s2.disableMulti = false ∧
      s2.req.pos = 100 + min (512 / 512) 3 ∧
      s2.req.sectors = 3 - min (512 / 512) 3 :=
  degraded_success_resets_multi mmcCard8
    { initState readReq3 with disableMulti := true } cleanStep
    (by decide) (by decide) (by decide) (by decide)

/-- Counterexample for C7 as stated: a zero-sector request is not
rejected before any transport command; the first iteration of
mmc_blk_issue_rq still hands a (single-block opcode, zero block)
command to mmc_wait_for_req. -/
theorem zero_request_issues_command_cex :
    Ev.exec 0 0 Dir.read ∈
      outEvs (step mmcCard8 (initState zeroReq) cleanStep) := by
  decide

/-- C7 (amended): mmc_blk_issue_rq contains no zero-length rejection:
for a zero-sector read request and a clean exchange transferring
nothing, the iteration issues exactly one transport command with a
block count of zero and then leaves the loop through the normal
completion path (not the cmd_err exit and not another cycle; no
InvalidRequest, no error report). -/
theorem zero_request_not_rejected (c : Card) (e : EnvStep) (r : ReqState)
    (h0 : r.sectors = 0) (hdir : r.dir = Dir.read)
    (hclean : errorsOf e = false) (hbx : e.bytesXfered = 0) :
    outEvs (step c (initState r) e) =
        [Ev.exec r.pos (planBlocks c (initState r)) r.dir,
          Ev.endOk 0] ∧
      isNext (step c (initState r) e) = false ∧
      isFatal (step c (initState r) e) = false ∧
      planBlocks c (initState r) = 0 := by
  have hpb : planBlocks c (initState r) = 0 := by
    rw [planBlocks_eq_ite]
    simp [initState, h0]
  refine ⟨?_, ?_, ?_, hpb⟩ <;>
    simp [step, hclean, hdir, hbx, h0, initState, resetDisableMulti_req,
      resetDisableMulti_tryRecovery, resetDisableMulti_cardNoReady,
      resetDisableMulti_removed, resetDisableMulti_disableMulti,
      endRequest_snd, hpb, outEvs, isNext, isFatal]

/-- Witness for the amended C7. -/
theorem zero_request_not_rejected_witness :
    outEvs (step mmcCard8 (initState zeroReq)
          { cleanStep with bytesXfered := 0 }) =
        [Ev.exec 0 (planBlocks mmcCard8 (initState zeroReq)) Dir.read,
          Ev.endOk 0] ∧
      isNext (step mmcCard8 (initState zeroReq)
          { cleanStep with bytesXfered := 0 }) = false ∧
      isFatal (step mmcCard8 (initState zeroReq)
          { cleanStep with bytesXfered := 0 }) = false ∧
      planBlocks mmcCard8 (initState zeroReq) = 0 :=
  zero_request_not_rejected mmcCard8 { cleanStep with bytesXfered := 0 }
    zeroReq (by decide) (by decide) (by decide) (by decide)

/-- Counterexample for C5 as stated: on a non-removable card a read
that keeps failing reaches escalation rung try_recovery = 2, and there
the request is not terminated with a fatal I/O error: the iteration
ends one single block with -EIO and the loop continues with the rest of
the request (block.c lines 668-678). -/
theorem read_rung2_not_fatal_cex :
    (stateAt mmcCard8 errEnv (initState readReq3) 2).tryRecovery = 2 ∧
      isNext (step mmcCard8
          (stateAt mmcCard8 errEnv (initState readReq3) 2)
          dataErrStep) = true ∧
      isFatal (step mmcCard8
          (stateAt mmcCard8 errEnv (initState readReq3) 2)
          dataErrStep) = false ∧
      Ev.endErr 512 ∈ outEvs (step mmcCard8
          (stateAt mmcCard8 errEnv (initState readReq3) 2)
          dataErrStep) := by
  decide

/-- C5 (amended): a failure entering the escalation ladder (any error
on a plan that is not a multi-block read, with the post-write poll
reporting ready for non-SPI writes) acts by the current rung: at
try_recovery = 1 a reinitialization is run (and on success the loop
resumes at rung 2); at try_recovery = 2 on a removable (SD) card the
card is removed and the request takes the cmd_err exit; at rung 2 and
beyond otherwise, a write takes the cmd_err exit, while a read has only
its current single block failed with -EIO and processing continues with
the remainder (the rung advancing by one). -/
theorem escalation_ladder_action (c : Card) (s : LoopState) (e : EnvStep)
    (herr : errorsOf e = true)
    (hread1 : s.req.dir = Dir.read → ¬ 1 < planBlocks c s)
    (hwpoll : s.req.dir = Dir.write → c.isSPI = false →
      e.poll = PollResult.ready)
    (hrm : s.removed = false) :
    (s.tryRecovery = 1 → e.reinitOk = true →
      ∃ s2 evs, step c s e = .next s2 evs ∧ s2.tryRecovery = 2 ∧
        Ev.reinit true ∈ evs) ∧
      (s.tryRecovery = 2 → c.isSD = true →
        ∃ s2 evs, step c s e = .fatal s2 evs ∧ Ev.removeCard ∈ evs) ∧
      (2 ≤ s.tryRecovery → (c.isSD = true → s.tryRecovery ≠ 2) →
        s.req.dir = Dir.write → isFatal (step c s e) = true) ∧
      (2 ≤ s.tryRecovery → (c.isSD = true → s.tryRecovery ≠ 2) →
        s.req.dir = Dir.read →
        ∃ s2 evs,
          (step c s e = .next s2 evs ∨ step c s e = .done s2 evs) ∧
            Ev.endErr 512 ∈ evs ∧
            s2.req.sectors = s.req.sectors - 1 ∧
            s2.tryRecovery = s.tryRecovery + 1) := by
  refine ⟨?_, ?_, ?_, ?_⟩
  · intro htr1 hro
    cases hdir : s.req.dir with
    | read =>
      have hble := hread1 hdir
      simp [step, herr, hdir, hble, htr1, resetDisableMulti_req,
        resetDisableMulti_tryRecovery, resetDisableMulti_cardNoReady,
        resetDisableMulti_removed, resetDisableMulti_disableMulti,
        reinitAct, hrm, hro]
      exact ⟨_, _, ⟨rfl, rfl⟩, rfl, by simp⟩
    | write =>
      by_cases hspi : c.isSPI = true
      · simp [step, herr, hdir, hspi, htr1, resetDisableMulti_req,
          resetDisableMulti_tryRecovery, resetDisableMulti_cardNoReady,
          resetDisableMulti_removed, resetDisableMulti_disableMulti,
          reinitAct, hrm, hro]
        exact ⟨_, _, ⟨rfl, rfl⟩, rfl, by simp⟩
      · have hpoll := hwpoll hdir (by revert hspi; cases c.isSPI <;> simp)
        simp [step, herr, hdir, hspi, hpoll, htr1, resetDisableMulti_req,
          resetDisableMulti_tryRecovery, resetDisableMulti_cardNoReady,
          resetDisableMulti_removed, resetDisableMulti_disableMulti,
          reinitAct, hrm, hro]
        exact ⟨_, _, ⟨rfl, rfl⟩, rfl, by simp⟩
  · intro htr2 hsd2
    have htr1 : ¬ s.tryRecovery = 1 := by omega
    cases hdir : s.req.dir with
    | read =>
      have hble := hread1 hdir
      simp [step, herr, hdir, hble, htr1, htr2, hsd2,
        resetDisableMulti_req, resetDisableMulti_tryRecovery,
        resetDisableMulti_cardNoReady, resetDisableMulti_removed,
        resetDisableMulti_disableMulti, removeAct, fatalOut]
      exact ⟨_, _, ⟨rfl, rfl⟩, by simp⟩
    | write =>
      by_cases hspi : c.isSPI = true
      · simp [step, herr, hdir, hspi, htr1, htr2, hsd2,
          resetDisableMulti_req, resetDisableMulti_tryRecovery,
          resetDisableMulti_cardNoReady, resetDisableMulti_removed,
          resetDisableMulti_disableMulti, removeAct, fatalOut]
        exact ⟨_, _, ⟨rfl, rfl⟩, by simp⟩
      · have hpoll := hwpoll hdir (by revert hspi; cases c.isSPI <;> simp)
        simp [step, herr, hdir, hspi, hpoll, htr1, htr2, hsd2,
          resetDisableMulti_req, resetDisableMulti_tryRecovery,
          resetDisableMulti_cardNoReady, resetDisableMulti_removed,
          resetDisableMulti_disableMulti, removeAct, fatalOut]
        exact ⟨_, _, ⟨rfl, rfl⟩, by simp⟩
  · intro htr hne hdir
    have htr1 : ¬ s.tryRecovery = 1 := by omega
    have hdrm : (c.isSD && decide (s.tryRecovery = 2)) = false := by
      cases h1 : c.isSD
      · simp
      · simp [hne h1]
    by_cases hspi : c.isSPI = true
    · simp [step, herr, hdir, hspi, htr1, hdrm, resetDisableMulti_req,
        resetDisableMulti_tryRecovery, resetDisableMulti_cardNoReady,
        resetDisableMulti_removed, resetDisableMulti_disableMulti,
        fatalOut, isFatal]
    · have hpoll := hwpoll hdir (by revert hspi; cases c.isSPI <;> simp)
      simp [step, herr, hdir, hspi, hpoll, htr1, hdrm,
        resetDisableMulti_req, resetDisableMulti_tryRecovery,
        resetDisableMulti_cardNoReady, resetDisableMulti_removed,
        resetDisableMulti_disableMulti, fatalOut, isFatal]
  · intro htr hne hdir
    have hble := hread1 hdir
    have htr1 : ¬ s.tryRecovery = 1 := by omega
    have hdrm : (c.isSD && decide (s.tryRecovery = 2)) = false := by
      cases h1 : c.isSD
      · simp
      · simp [hne h1]
    simp only [step, herr, hdir]
    simp [herr, hdir, hble, htr1, hdrm, resetDisableMulti_req,
      resetDisableMulti_tryRecovery, resetDisableMulti_cardNoReady,
      resetDisableMulti_removed, resetDisableMulti_disableMulti,
      endRequest_snd]
    split
    · refine ⟨_, _, Or.inl rfl, by simp, ?_, rfl⟩
      simp [endRequest_sectors]
      omega
    · refine ⟨_, _, Or.inr rfl, by simp, ?_, rfl⟩
      simp [endRequest_sectors]
      omega

/-- State for the C5 witness: rung 3 on a degraded read. -/
def ladderState3 : LoopState :=
  { req := { pos := 0, sectors := 3, dir := Dir.read },
    disableMulti := true, cardNoReady := 0, tryRecovery := 3,
    removed := false }

/-- Witness for the amended C5: at rung 3 on a non-removable card a
failing read has one block failed and the loop continues. -/
theorem escalation_ladder_action_witness :
    ∃ s2 evs,
      (step mmcCard8 ladderState3 dataErrStep = .next s2 evs ∨
          step mmcCard8 ladderState3 dataErrStep = .done s2 evs) ∧
        Ev.endErr 512 ∈ evs ∧
        s2.req.sectors = ladderState3.req.sectors - 1 ∧
        s2.tryRecovery = ladderState3.tryRecovery + 1 :=
  (escalation_ladder_action mmcCard8 ladderState3 dataErrStep
      (by decide) (by decide) (by decide) (by decide)).2.2.2
    (by decide) (by decide) (by decide)

/-- C2: the cmd_err tail first reports the successfully completed
prefix as success — worth the device written-blocks count for the SD
class when the query succeeds (and nothing when it fails), and the last
recorded bytes_xfered for the non-SD class — and then reports the whole
uncompleted remainder of the request as I/O errors: the trace is the
success prefix followed only by -EIO reports, the reported bytes cover
exactly the outstanding sectors (so a nonzero remainder is always
failed, never dropped), and afterwards nothing of the request is left
outstanding. -/
theorem cmdErrTail_reports (c : Card) (r : ReqState) (bx : Nat)
    (sdB : Option Nat) (hb : sdB.getD 0 ≤ r.sectors)
    (hbx : bx ≤ 512 * r.sectors) (hdvd : bx % 512 = 0) :
    okSum (cmdErrTail c r bx sdB).1 =
        (if c.isSD = true then 512 * sdB.getD 0 else bx) ∧
      okSum (cmdErrTail c r bx sdB).1 +
          errSum (cmdErrTail c r bx sdB).1 = 512 * r.sectors ∧
      (cmdErrTail c r bx sdB).1 =
        (if c.isSD = true then
            (match sdB with
              | some b => [Ev.endOkSd (512 * b)]
              | none => ([] : List Ev))
          else [Ev.endOk bx]) ++
          List.replicate
            (r.sectors - (if c.isSD = true then sdB.getD 0 else bx / 512))
            (Ev.endErr 512) ∧
      (cmdErrTail c r bx sdB).2.sectors = 0 := by
  by_cases hsd : c.isSD = true
  · cases sdB with
    | none =>
      simp [cmdErrTail, hsd, okSum, errSum, okSum_append, errSum_append,
        okSum_replicate_endErr, errSum_replicate_endErr]
    | some b =>
      simp only [Option.getD_some] at hb
      have hdiv : 512 * b / 512 = b := Nat.mul_div_cancel_left b
        (by norm_num)
      simp [cmdErrTail, hsd, endRequest, hdiv, Nat.min_eq_left hb,
        okSum, errSum, evOkBytes, evErrBytes, okSum_append,
        errSum_append, okSum_replicate_endErr, errSum_replicate_endErr]
      omega
  · obtain ⟨q, hq⟩ : ∃ q, bx = 512 * q := ⟨bx / 512, by omega⟩
    have hdiv : bx / 512 = q := by omega
    have hq2 : q ≤ r.sectors := by omega
    simp [cmdErrTail, hsd, endRequest, hdiv, Nat.min_eq_left hq2,
      okSum, errSum, evOkBytes, evErrBytes, okSum_append,
      errSum_append, okSum_replicate_endErr, errSum_replicate_endErr]
    omega

/-- Witness for C2: an SD cmd_err with one device-acknowledged block of
four outstanding. -/
theorem cmdErrTail_reports_witness :
    okSum (cmdErrTail sdCard8 writeReq4 0 (some 1)).1 =
        (if sdCard8.isSD = true then 512 * (some 1).getD 0 else 0) ∧
      okSum (cmdErrTail sdCard8 writeReq4 0 (some 1)).1 +
          errSum (cmdErrTail sdCard8 writeReq4 0 (some 1)).1 =
        512 * writeReq4.sectors ∧
      (cmdErrTail sdCard8 writeReq4 0 (some 1)).1 =
        (if sdCard8.isSD = true then
            (match (some 1 : Option Nat) with
              | some b => [Ev.endOkSd (512 * b)]
              | none => ([] : List Ev))
          else [Ev.endOk 0]) ++
          List.replicate
            (writeReq4.sectors -
              (if sdCard8.isSD = true then (some 1).getD 0 else 0 / 512))
            (Ev.endErr 512) ∧
      (cmdErrTail sdCard8 writeReq4 0 (some 1)).2.sectors = 0 :=
  cmdErrTail_reports sdCard8 writeReq4 0 (some 1) (by decide)
    (by decide) (by decide)

/-- C8: when the post-write poll leaves through the exhausted
wall-clock branch (budget elapsed and the poll count past the fls
threshold, status command itself fine), the result is ready exactly
when the response shows READY_FOR_DATA in the idle transfer state 4
despite the nominal timeout, and not-ready otherwise; a not-ready
outcome advances try_recovery and the not-ready counter, and at rung
try_recovery = 1 the following recovery pass runs the
reinitialization. -/
theorem waitReady_budget_exit (penv : Nat → PollStep) (i fuel : Nat)
    (hne : (penv i).statusErr = false) (hb : (penv i).budget = true)
    (hi : 10 < fls i) :
    waitReady penv i (fuel + 1) =
        some (if (penv i).ready && decide ((penv i).state = 4) then
          PollResult.ready else PollResult.notReady) ∧
      (∀ s : LoopState, (pollNotReadyUpdate s).tryRecovery =
          s.tryRecovery + 1 ∧
        (pollNotReadyUpdate s).cardNoReady = s.cardNoReady + 1) ∧
      (∀ (c : Card) (s : LoopState) (e : EnvStep),
        s.req.dir = Dir.write → c.isSPI = false →
        e.poll = PollResult.notReady → errorsOf e = false →
        s.tryRecovery = 1 → s.removed = false → e.reinitOk = true →
        ∃ s2 evs, step c s e = .next s2 evs ∧
          s2.tryRecovery = s.tryRecovery + 1 ∧
          s2.cardNoReady = s.cardNoReady + 1 ∧ Ev.reinit true ∈ evs) := by
  refine ⟨?_, fun s => ⟨rfl, rfl⟩, ?_⟩
  · simp only [waitReady, hne, Bool.false_eq_true, if_false, hb, hi,
      decide_True, Bool.true_and, Bool.and_self, if_true]
    split <;> simp_all
  · intro c s e hdir hspi hpoll herr htr1 hrm hro
    simp [step, herr, hdir, hspi, hpoll, htr1, resetDisableMulti_req,
      resetDisableMulti_tryRecovery, resetDisableMulti_cardNoReady,
      resetDisableMulti_removed, resetDisableMulti_disableMulti,
      pollNotReadyUpdate, reinitAct, hrm, hro]
    exact ⟨_, _, ⟨rfl, rfl⟩, htr1 ▸ rfl, rfl, by simp⟩

/-- Constant poll environment for the C8 witness: ready card in state 4
with the budget already elapsed. -/
def readyPollEnv : Nat → PollStep := fun _ =>
  { statusErr := false, ready := true, state := 4, budget := true }

/-- Witness for C8: at poll count 2048 (fls = 12 > 10) with the budget
elapsed, a ready card in state 4 yields success despite the timeout. -/
theorem waitReady_budget_exit_witness :
    waitReady readyPollEnv 2048 4 = some PollResult.ready := by
  have h := (waitReady_budget_exit readyPollEnv 2048 3 (by rfl) (by rfl)
    (by decide)).1
  simpa [readyPollEnv] using h

/-- Counterexample for C9 as stated: the inter-poll delay is class
dependent — sleepy is mmc_card_sd(card), so for the non-SD class the
delay is absent (zero at every poll count, never growing), while the SD
class does back off. -/
theorem pollDelay_class_dependent_cex :
    pollDelay false 2048 = 0 ∧ pollDelay false 1048576 = 0 ∧
      pollDelay true 2048 = 1 ∧ pollDelay true 1048576 = 10 := by
  decide

/-- C9 (amended): for the SD class the inter-poll delay is a
non-decreasing and unbounded function of the poll count (adaptive
backoff, not fixed-interval); for the non-SD class no inter-poll delay
is applied at all. -/
theorem pollDelay_spec :
    (∀ i j : Nat, i ≤ j → pollDelay true i ≤ pollDelay true j) ∧
      (∀ m : Nat, ∃ i : Nat, m ≤ pollDelay true i) ∧
      (∀ i : Nat, pollDelay false i = 0) := by
  refine ⟨?_, ?_, ?_⟩
  · intro i j hij
    by_cases hi : 11 < fls i
    · have hj : 11 < fls j := lt_of_lt_of_le hi (fls_mono j i hij)
      simp only [pollDelay, hi, hj, decide_True, Bool.true_and,
        Bool.and_self, if_true]
      rw [Nat.shiftRight_eq_div_pow, Nat.shiftRight_eq_div_pow]
      exact fls_mono _ _ (Nat.div_le_div_right hij)
    · simp [pollDelay, hi]
  · intro m
    refine ⟨2 ^ (m + 11), ?_⟩
    have h1 : fls (2 ^ (m + 11)) = m + 12 := fls_two_pow (m + 11)
    have h2 : 2 ^ (m + 11) >>> 11 = 2 ^ m := by
      rw [Nat.shiftRight_eq_div_pow, pow_add,
        Nat.mul_div_cancel _ (by positivity)]
    have h3 : fls (2 ^ m) = m + 1 := fls_two_pow m
    simp [pollDelay, h1, h2, h3]
  · intro i
    simp [pollDelay]

/-- Witness for the amended C9. -/
theorem pollDelay_spec_witness :
    pollDelay true 2048 ≤ pollDelay true 4096 ∧
      pollDelay false 77 = 0 :=
  ⟨pollDelay_spec.1 2048 4096 (by decide), pollDelay_spec.2.2 77⟩

/-- C10: opening the block device in write mode against a read-only
slot returns -EROFS and gives back the usage reference taken by
mmc_blk_get, leaving the usage count unchanged; a read-mode open of the
same slot succeeds (returns 0) and holds one extra reference. -/
theorem mmc_blk_open_readonly (d : BlkData) (h1 : 1 ≤ d.usage)
    (hro : d.readOnly = true) :
    mmc_blk_open (some d) true = (some d, -30) ∧
      mmc_blk_open (some d) false =
        (some { d with usage := d.usage + 1 }, 0) := by
  obtain ⟨u, ro⟩ := d
  simp only at h1 hro
  have hu : ¬ u = 0 := by omega
  subst hro
  constructor
  · simp [mmc_blk_open, mmc_blk_get, mmc_blk_put, hu]
  · simp [mmc_blk_open, mmc_blk_get, hu]

/-- Witness for C10 on a slot with two users. -/
theorem mmc_blk_open_readonly_witness :
    mmc_blk_open (some ⟨2, true⟩) true = (some ⟨2, true⟩, -30) ∧
      mmc_blk_open (some ⟨2, true⟩) false = (some ⟨3, true⟩, 0) :=
  mmc_blk_open_readonly ⟨2, true⟩ (by decide) (by decide)

end MmcBlk
